import Mathlib

/-!
Verification of the solid-test-app canvas application: the card data model, the
viewport-transform event handlers, and the persistence layer, embedded from the
TypeScript sources (src/hooks/created-persisted-store.ts and the two App
variants).  Numbers are modelled as rationals, browser storage as partial maps
from keys to strings, and the platform primitives JSON.stringify / JSON.parse
as an executable printer / parser pair over the value shapes the app stores.
-/

namespace SolidApp

/-- A 2D point, from the `Position` interface shared by both App variants. -/
structure Pos where
  x : ℚ
  y : ℚ
  deriving DecidableEq

/-- A card, from the `Card` interface of both variants: an id, a position on the
canvas, and the card text. -/
structure Card where
  id : String
  position : Pos
  text : String
  deriving DecidableEq

/-- A partial card update, modelling the TypeScript argument type
`Partial<Omit<Card, "id">>` of `updateCard`: each mutable field is either
present or absent, and `id` can never be present. -/
structure CardPatch where
  position : Option Pos
  text : Option String
  deriving DecidableEq

/-- Object.assign(currentCard, card) as performed inside `updateCard` of both
variants: the fields present in the patch overwrite the card's fields, and `id`
is untouched because the patch type omits it. -/
def applyPatch (c : Card) (p : CardPatch) : Card :=
  { c with
    position := p.position.getD c.position
    text := p.text.getD c.text }

/-- The cursor fields of a DOM MouseEvent that the handlers read. -/
structure MouseEvent where
  clientX : ℚ
  clientY : ℚ
  deriving DecidableEq

/-- The fields of a DOM WheelEvent that `handleWheel` reads. -/
structure WheelEvent where
  clientX : ℚ
  clientY : ℚ
  deltaY : ℚ
  deriving DecidableEq

/-- The canvas viewport transform `canvasPosition` of the zoomable variant: pan
offset and scale. -/
structure CanvasPos where
  x : ℚ
  y : ℚ
  scale : ℚ
  deriving DecidableEq

/-- Modelled from the spec: `clamp` is imported from `./utils`, whose file is
not among the sources; the spec describes it as "numeric clamping", i.e.
restricting a value to the closed interval [lo, hi]. -/
def clamp (value lo hi : ℚ) : ℚ :=
  min (max value lo) hi

/-- MAX_SCALE constant of the zoomable App variant. -/
def MAX_SCALE : ℚ := 5

/-- MIN_SCALE constant of the zoomable App variant (0.25). -/
def MIN_SCALE : ℚ := 1 / 4

/-- SCALING_FACTOR constant of the zoomable App variant (0.01). -/
def SCALING_FACTOR : ℚ := 1 / 100

/-- A browser Storage object: a partial map from keys to stored strings;
`getItem` returns null, modelled as `none`, for an absent key. -/
def Store : Type := String → Option String

/-- Storage.setItem: stores `value` under `key`, replacing any previous entry. -/
def setItem (st : Store) (key value : String) : Store :=
  fun k => if k = key then some value else st k

/-- A storage with no entries. -/
def emptyStore : Store := fun _ => none

/-- The two storages a browser window offers. -/
structure World where
  sessionStorage : Store
  localStorage : Store

/-- getPersistedValue from src/hooks/created-persisted-store.ts.  `JSON.parse`
at the value type is supplied as the `parse` argument; an absent key, the empty
string (falsy in `persistedValue ? JSON.parse(persistedValue) : undefined`),
and a parse failure (the catch branch) all yield `none`.  The function is
total: the try/catch guarantees it never throws. -/
def getPersistedValue (parse : String → Option α) (storage : Store)
    (key : String) : Option α :=
  match storage key with
  | none => none
  | some s => if s = "" then none else parse s

/-- Storage selection at the top of createPersistentStore:
`options.type === "session" ? sessionStorage : localStorage`. -/
def storageFor (w : World) (type : String) : Store :=
  if type = "session" then w.sessionStorage else w.localStorage

/-- The seed value createPersistentStore hands to `createStore`:
`getPersistedValue(storage, options.key) || object`. -/
def createPersistentStoreSeed (parse : String → Option α) (storage : Store)
    (key : String) (object : α) : α :=
  (getPersistedValue parse storage key).getD object

/-- One run of the persistence effect inside createPersistentStore: the code
calls `sessionStorage.setItem(options.key, stringifiedValue)`, writing to the
session storage regardless of `options.type`. -/
def persistStep (w : World) (key value : String) : World :=
  { w with sessionStorage := setItem w.sessionStorage key value }

namespace Variant0

/-- addCard of the zoomable App variant, with the result of `generateId()`
passed in as `newId`: appends a fresh card at index `cards.length`. -/
def addCard (cards : List Card) (newId : String) : List Card :=
  cards ++ [{ id := newId, text := "New Card", position := { x := 100, y := 100 } }]

/-- updateCard of the zoomable App variant: `setCards` with a predicate path
applies the `produce(Object.assign)` update to every card whose id matches. -/
def updateCard (cards : List Card) (cardId : String) (patch : CardPatch) :
    List Card :=
  cards.map fun c => if c.id = cardId then applyPatch c patch else c

/-- handleWheel of the zoomable App variant, translated line by line. -/
def handleWheel (canvasPosition : CanvasPos) (e : WheelEvent) : CanvasPos :=
  let currentScale := canvasPosition.scale
  let direction : String := if e.deltaY < 0 then "up" else "down"
  let absoluteDiff := |e.deltaY| * SCALING_FACTOR
  let unclampedNewScale :=
    if direction = "up" then currentScale + absoluteDiff
    else currentScale - absoluteDiff
  let newScale := clamp unclampedNewScale MIN_SCALE MAX_SCALE
  let distanceX := e.clientX - canvasPosition.x
  let distanceY := e.clientY - canvasPosition.y
  let scaledDistanceX := distanceX / currentScale * newScale
  let scaledDistanceY := distanceY / currentScale * newScale
  let newX := e.clientX - scaledDistanceX
  let newY := e.clientY - scaledDistanceY
  { x := newX, y := newY, scale := newScale }

/-- The background drag state of the zoomable App variant: the last recorded
cursor position `mouseDownPosition` (null while no drag is active) together
with the canvas transform it updates. -/
structure BackgroundState where
  mouseDownPosition : Option Pos
  canvasPosition : CanvasPos
  deriving DecidableEq

/-- handleBackgroundMouseMove of the zoomable App variant: pans the canvas by
the cursor movement since the previous event and records the cursor as the new
`mouseDownPosition`; it returns unchanged when no drag is active. -/
def handleBackgroundMouseMove (st : BackgroundState) (e : MouseEvent) :
    BackgroundState :=
  match st.mouseDownPosition with
  | none => st
  | some p =>
    let deltaX := p.x - e.clientX
    let deltaY := p.y - e.clientY
    { mouseDownPosition := some { x := e.clientX, y := e.clientY }
      canvasPosition :=
        { x := st.canvasPosition.x - deltaX
          y := st.canvasPosition.y - deltaY
          scale := st.canvasPosition.scale } }

/-- handleMouseMove of the Card component in the zoomable variant: moves the
dragged card by the cursor delta divided by the canvas scale, and records the
cursor as the new previous mouse position; a missing previous position means no
drag is active and nothing changes. -/
def handleMouseMove (cards : List Card) (card : Card) (scale : ℚ)
    (prevMousePosition : Option Pos) (e : MouseEvent) :
    List Card × Option Pos :=
  match prevMousePosition with
  | none => (cards, none)
  | some prev =>
    let deltaX := e.clientX - prev.x
    let deltaY := e.clientY - prev.y
    (updateCard cards card.id
      { position := some
          { x := card.position.x + deltaX / scale
            y := card.position.y + deltaY / scale }
        text := none },
      some { x := e.clientX, y := e.clientY })

end Variant0

namespace Variant1

/-- addCard of the plain App variant, with the result of `generateId()` passed
in as `newId`: appends a fresh card at index `cards.length`. -/
def addCard (cards : List Card) (newId : String) : List Card :=
  cards ++ [{ id := newId, text := "New Card", position := { x := 100, y := 100 } }]

/-- updateCard of the plain App variant: `setCards` with a predicate path
applies the `produce(Object.assign)` update to every card whose id matches. -/
def updateCard (cards : List Card) (cardId : String) (patch : CardPatch) :
    List Card :=
  cards.map fun c => if c.id = cardId then applyPatch c patch else c

end Variant1

/-- The character for one decimal digit, used by the number printer. -/
def digitChar (d : Nat) : Char :=
  match d with
  | 0 => '0' | 1 => '1' | 2 => '2' | 3 => '3' | 4 => '4'
  | 5 => '5' | 6 => '6' | 7 => '7' | 8 => '8' | _ => '9'

/-- The decimal value of a digit character. -/
def charToDigit (c : Char) : Nat :=
  c.toNat - 48

/-- Splits a character list into its leading run of decimal digits (as digit
values, most significant first) and the remainder. -/
def readDigits : List Char → List Nat × List Char
  | [] => ([], [])
  | c :: rest =>
    if c.isDigit then
      let p := readDigits rest
      (charToDigit c :: p.1, p.2)
    else ([], c :: rest)

/-- Prints a natural number in decimal. -/
def printNat (n : Nat) : List Char :=
  if n = 0 then ['0'] else (Nat.digits 10 n).reverse.map digitChar

/-- Parses a nonempty run of decimal digits as a natural number. -/
def parseNat (s : List Char) : Option (Nat × List Char) :=
  if (readDigits s).1.isEmpty then none
  else some (Nat.ofDigits 10 (readDigits s).1.reverse, (readDigits s).2)

/-- Prints an integer in decimal with a leading minus sign when negative. -/
def printInt (i : Int) : List Char :=
  if i < 0 then '-' :: printNat i.natAbs else printNat i.natAbs

/-- Parses an optionally negated decimal integer. -/
def parseInt (s : List Char) : Option (Int × List Char) :=
  match s with
  | [] => none
  | c :: rest =>
    if c = '-' then (parseNat rest).map fun p => (-(p.1 : Int), p.2)
    else (parseNat (c :: rest)).map fun p => ((p.1 : Int), p.2)

/-- Prints a rational number losslessly: the integer numerator, followed by a
slash and the denominator when the denominator is not 1.  This models the
lossless number serialization of JSON.stringify (JS floats are printed with
their shortest decimal form, which parses back to the same float); exactness
over ℚ is kept by printing an exact fraction. -/
def printRat (q : ℚ) : List Char :=
  printInt q.num ++ (if q.den = 1 then [] else '/' :: printNat q.den)

/-- Parses a number printed by `printRat`. -/
def parseRat (s : List Char) : Option (ℚ × List Char) :=
  (parseInt s).bind fun p =>
    match p.2 with
    | [] => some ((p.1 : ℚ), [])
    | c :: rest2 =>
      if c = '/' then (parseNat rest2).map fun p2 => (mkRat p.1 p2.1, p2.2)
      else some ((p.1 : ℚ), c :: rest2)

/-- Escapes the quote and backslash characters of a string body, as
JSON.stringify does. -/
def escapeChars : List Char → List Char
  | [] => []
  | c :: rest =>
    if c = '"' ∨ c = '\\' then '\\' :: c :: escapeChars rest
    else c :: escapeChars rest

/-- Parses the body of a JSON string literal up to its closing quote, undoing
the escapes of `escapeChars`. -/
def parseStringBody : List Char → Option (List Char × List Char)
  | [] => none
  | '\\' :: c2 :: rest2 => (parseStringBody rest2).map fun p => (c2 :: p.1, p.2)
  | c :: rest =>
    if c = '"' then some ([], rest)
    else (parseStringBody rest).map fun p => (c :: p.1, p.2)

/-- Prints a JSON string literal with surrounding quotes. -/
def printString (s : String) : List Char :=
  '"' :: (escapeChars s.data ++ ['"'])

/-- Parses a JSON string literal with surrounding quotes. -/
def parseStringLit (s : List Char) : Option (String × List Char) :=
  match s with
  | [] => none
  | c :: rest =>
    if c = '"' then (parseStringBody rest).map fun p => (String.mk p.1, p.2)
    else none

/-- Consumes an expected literal character sequence from the input. -/
def expectLit : List Char → List Char → Option (List Char)
  | [], s => some s
  | c :: cs, s =>
    match s with
    | [] => none
    | c2 :: s2 => if c2 = c then expectLit cs s2 else none

/-- Literal opening of a serialized card object up to the id value. -/
def litCardOpen : List Char := ("\x7b\"id\":").data

/-- Literal separator before the text field of a serialized card. -/
def litTextKey : List Char := (",\"text\":").data

/-- Literal separator before the position field of a serialized card. -/
def litPositionKey : List Char := (",\"position\":").data

/-- Literal opening of a serialized position object up to the x value. -/
def litPosOpen : List Char := ("\x7b\"x\":").data

/-- Literal separator before the y field of a serialized position. -/
def litYKey : List Char := (",\"y\":").data

/-- Literal closing brace of a serialized object. -/
def litClose : List Char := ("\x7d").data

/-- Serializes a position object the way JSON.stringify renders it. -/
def printPos (p : Pos) : List Char :=
  litPosOpen ++ (printRat p.x ++ (litYKey ++ (printRat p.y ++ litClose)))

/-- Parses a serialized position object. -/
def parsePos (s : List Char) : Option (Pos × List Char) :=
  (expectLit litPosOpen s).bind fun s1 =>
  (parseRat s1).bind fun px =>
  (expectLit litYKey px.2).bind fun s2 =>
  (parseRat s2).bind fun py =>
  (expectLit litClose py.2).map fun s3 => ({ x := px.1, y := py.1 }, s3)

/-- Serializes one card the way JSON.stringify renders the objects `addCard`
creates (key order id, text, position follows the object literal in `addCard`). -/
def printCard (c : Card) : List Char :=
  litCardOpen ++ (printString c.id ++ (litTextKey ++ (printString c.text ++
    (litPositionKey ++ (printPos c.position ++ litClose)))))

/-- Parses one serialized card object. -/
def parseCardObj (s : List Char) : Option (Card × List Char) :=
  (expectLit litCardOpen s).bind fun s1 =>
  (parseStringLit s1).bind fun pid =>
  (expectLit litTextKey pid.2).bind fun s2 =>
  (parseStringLit s2).bind fun ptext =>
  (expectLit litPositionKey ptext.2).bind fun s3 =>
  (parsePos s3).bind fun ppos =>
  (expectLit litClose ppos.2).map fun s4 =>
    ({ id := pid.1, position := ppos.1, text := ptext.1 }, s4)

/-- Serializes the elements of a card array, including the closing bracket. -/
def printCardsBody : List Card → List Char
  | [] => [']']
  | [c] => printCard c ++ [']']
  | c :: c2 :: rest => printCard c ++ (',' :: printCardsBody (c2 :: rest))

/-- Serializes a card array the way JSON.stringify renders it. -/
def printCards (cards : List Card) : List Char :=
  '[' :: printCardsBody cards

/-- JSON.stringify at the card-list type. -/
def stringifyCards (cards : List Card) : String :=
  String.mk (printCards cards)

/-- Parses the comma-separated elements of a nonempty card array, consuming the
closing bracket; the fuel bounds the number of elements. -/
def parseCardsAux : Nat → List Char → Option (List Card × List Char)
  | 0, _ => none
  | fuel + 1, s =>
    (parseCardObj s).bind fun p =>
      match p.2 with
      | [] => none
      | c :: rest =>
        if c = ',' then (parseCardsAux fuel rest).map fun q => (p.1 :: q.1, q.2)
        else if c = ']' then some ([p.1], rest)
        else none

/-- Parses a serialized card array. -/
def parseCardsList (s : List Char) : Option (List Card × List Char) :=
  match s with
  | '[' :: rest =>
    (match rest with
      | [] => none
      | c :: rest2 =>
        if c = ']' then some ([], rest2)
        else parseCardsAux (rest.length + 1) (c :: rest2))
  | _ => none

/-- JSON.parse at the card-list type: succeeds only when the whole string is a
serialized card array; any other input makes JSON.parse throw or produce a
value of a different shape, both modelled as `none`. -/
def parseCards (s : String) : Option (List Card) :=
  match parseCardsList s.data with
  | none => none
  | some p => if p.2 = [] then some p.1 else none

/-- Emptiness of the leading-digit run, used as the boundary condition after a
printed natural number. -/
def noLeadDigit (l : List Char) : Prop :=
  ∀ c, l.head? = some c → c.isDigit = false

/-- Boundary condition after a printed rational: the remainder continues
neither the digit run nor a fraction. -/
def numBoundary (l : List Char) : Prop :=
  ∀ c, l.head? = some c → c.isDigit = false ∧ c ≠ '/'

namespace Variant1

/-- One run of the createEffect persistence of the plain App variant:
`sessionStorage.setItem("cards", JSON.stringify(cards))`. -/
def persistCards (st : Store) (cards : List Card) : Store :=
  setItem st ("cards") (stringifyCards cards)

/-- getInitialCards from the plain App variant: reads the "cards" key, returns
the empty list when it is absent or falsy (the empty string), parses it
otherwise, and returns the empty list from the catch branch on a parse
failure.  The function is total: it never throws. -/
def getInitialCards (storage : Store) : List Card :=
  match storage ("cards") with
  | none => []
  | some s => if s = "" then [] else (parseCards s).getD []

end Variant1

/-- digitChar of a digit value below 10 is a decimal digit character. -/
lemma isDigit_digitChar (d : Nat) (h : d < 10) : (digitChar d).isDigit = true := by
  interval_cases d <;> rfl

/-- charToDigit inverts digitChar on digit values below 10. -/
lemma charToDigit_digitChar (d : Nat) (h : d < 10) :
    charToDigit (digitChar d) = d := by
  interval_cases d <;> rfl

/-- A list headed by a non-digit character satisfies noLeadDigit. -/
lemma noLeadDigit_cons (c : Char) (l : List Char) (h : c.isDigit = false) :
    noLeadDigit (c :: l) := by
  intro d hd
  simp only [List.head?_cons, Option.some.injEq] at hd
  exact hd ▸ h

/-- The empty list satisfies noLeadDigit. -/
lemma noLeadDigit_nil : noLeadDigit [] := by
  intro d hd
  simp at hd

/-- A list headed by a non-digit, non-slash character satisfies numBoundary. -/
lemma numBoundary_cons (c : Char) (l : List Char) (h1 : c.isDigit = false)
    (h2 : c ≠ '/') : numBoundary (c :: l) := by
  intro d hd
  simp only [List.head?_cons, Option.some.injEq] at hd
  exact hd ▸ ⟨h1, h2⟩

/-- readDigits splits a printed digit run off the remaining input. -/
lemma readDigits_append (ds : List Nat) (rest : List Char)
    (h : ∀ d ∈ ds, d < 10) (hr : noLeadDigit rest) :
    readDigits (ds.map digitChar ++ rest) = (ds, rest) := by
  induction ds with
  | nil =>
    cases rest with
    | nil => rfl
    | cons c t =>
      have hc : c.isDigit = false := hr c rfl
      simp [readDigits, hc]
  | cons d ds ih =>
    have hd : d < 10 := h d (by simp)
    have ih2 := ih (fun x hx => h x (by simp [hx]))
    simp [readDigits, isDigit_digitChar d hd, charToDigit_digitChar d hd, ih2]

/-- parseNat inverts printNat, given no trailing digit. -/
lemma parseNat_printNat (n : Nat) (rest : List Char) (hr : noLeadDigit rest) :
    parseNat (printNat n ++ rest) = some (n, rest) := by
  by_cases h0 : n = 0
  · subst h0
    have h1 : printNat 0 = [0].map digitChar := rfl
    rw [h1]
    unfold parseNat
    rw [readDigits_append [0] rest (by norm_num) hr]
    simp [Nat.ofDigits]
  · have h1 : printNat n = ((Nat.digits 10 n).reverse).map digitChar := by
      unfold printNat
      rw [if_neg h0]
    have h2 : ∀ d ∈ (Nat.digits 10 n).reverse, d < 10 := fun d hd =>
      Nat.digits_lt_base (by norm_num) (List.mem_reverse.mp hd)
    have h3 : (Nat.digits 10 n).reverse ≠ [] := by
      simp [Nat.digits_ne_nil_iff_ne_zero.mpr h0]
    rw [h1]
    unfold parseNat
    rw [readDigits_append _ rest h2 hr]
    simp [List.isEmpty_eq_false.mpr h3, Nat.ofDigits_digits]

/-- printNat always begins with a digit character. -/
lemma printNat_head (n : Nat) : ∃ c t, printNat n = c :: t ∧ c.isDigit = true := by
  by_cases h0 : n = 0
  · subst h0
    exact ⟨'0', [], rfl, rfl⟩
  · have h3 : (Nat.digits 10 n).reverse ≠ [] := by
      simp [Nat.digits_ne_nil_iff_ne_zero.mpr h0]
    obtain ⟨d, t, ht⟩ := List.exists_cons_of_ne_nil h3
    refine ⟨digitChar d, t.map digitChar, ?_, ?_⟩
    · unfold printNat
      rw [if_neg h0, ht]
      rfl
    · have hd : d ∈ (Nat.digits 10 n).reverse := by
        rw [ht]
        simp
      exact isDigit_digitChar d (Nat.digits_lt_base (by norm_num)
        (List.mem_reverse.mp hd))

/-- parseInt inverts printInt, given no trailing digit. -/
lemma parseInt_printInt (i : Int) (rest : List Char) (hr : noLeadDigit rest) :
    parseInt (printInt i ++ rest) = some (i, rest) := by
  obtain ⟨c, t, hct, hd⟩ := printNat_head i.natAbs
  by_cases hneg : i < 0
  · unfold printInt
    rw [if_pos hneg]
    show parseInt ('-' :: (printNat i.natAbs ++ rest)) = _
    simp only [parseInt, if_pos rfl]
    rw [parseNat_printNat i.natAbs rest hr]
    have hi : -((i.natAbs : Nat) : Int) = i := by omega
    simp only [Option.map_some', hi]
    exact if_pos trivial
  · unfold printInt
    rw [if_neg hneg, hct]
    show parseInt (c :: (t ++ rest)) = _
    have hcne : c ≠ '-' := by
      intro h
      rw [h] at hd
      exact absurd hd (by decide)
    simp only [parseInt, if_neg hcne]
    have hback : c :: (t ++ rest) = printNat i.natAbs ++ rest := by
      rw [hct]
      rfl
    rw [hback, parseNat_printNat i.natAbs rest hr]
    have hi : ((i.natAbs : Nat) : Int) = i := by omega
    simp only [Option.map_some', hi]

/-- parseRat inverts printRat, given a non-digit, non-slash boundary. -/
lemma parseRat_printRat (q : ℚ) (rest : List Char) (hb : numBoundary rest) :
    parseRat (printRat q ++ rest) = some (q, rest) := by
  have hr : noLeadDigit rest := fun c hc => (hb c hc).1
  by_cases hden : q.den = 1
  · unfold printRat
    rw [if_pos hden]
    simp only [List.append_nil]
    unfold parseRat
    rw [parseInt_printInt q.num rest hr]
    simp only [Option.some_bind]
    have hq : ((q.num : Int) : ℚ) = q := (Rat.den_eq_one_iff q).mp hden
    cases rest with
    | nil => simp [hq]
    | cons c t =>
      have hc := hb c rfl
      show (if c = '/' then
          Option.map (fun p2 => (mkRat q.num p2.1, p2.2)) (parseNat t)
        else some ((q.num : ℚ), c :: t)) = some (q, c :: t)
      rw [if_neg hc.2]
      simp [hq]
  · unfold printRat
    rw [if_neg hden]
    have hassoc : printInt q.num ++ ('/' :: printNat q.den) ++ rest =
        printInt q.num ++ ('/' :: (printNat q.den ++ rest)) := by
      simp [List.append_assoc]
    rw [hassoc]
    unfold parseRat
    rw [parseInt_printInt q.num ('/' :: (printNat q.den ++ rest))
      (noLeadDigit_cons _ _ (by decide))]
    simp only [Option.some_bind]
    rw [if_pos trivial, parseNat_printNat q.den rest hr]
    simp [Rat.mkRat_self]

/-- parseStringBody on an unescaped ordinary character keeps it and recurses. -/
lemma parseStringBody_cons_ne (c : Char) (rest : List Char) (h1 : c ≠ '\\')
    (h2 : c ≠ '"') :
    parseStringBody (c :: rest) =
      (parseStringBody rest).map fun p => (c :: p.1, p.2) := by
  rw [parseStringBody.eq_def]
  split <;> simp_all

/-- parseStringBody undoes escapeChars up to the closing quote. -/
lemma parseStringBody_escape (s rest : List Char) :
    parseStringBody (escapeChars s ++ ('"' :: rest)) = some (s, rest) := by
  induction s with
  | nil =>
    show parseStringBody ('"' :: rest) = some ([], rest)
    simp [parseStringBody]
  | cons c s ih =>
    by_cases hc : c = '"' ∨ c = '\\'
    · have h1 : escapeChars (c :: s) = '\\' :: c :: escapeChars s := by
        simp only [escapeChars]
        rw [if_pos hc]
      rw [h1]
      show parseStringBody ('\\' :: c :: (escapeChars s ++ ('"' :: rest))) = _
      rw [show parseStringBody ('\\' :: c :: (escapeChars s ++ ('"' :: rest))) =
          (parseStringBody (escapeChars s ++ ('"' :: rest))).map
            (fun p => (c :: p.1, p.2)) from rfl]
      rw [ih]
      rfl
    · push_neg at hc
      have h1 : escapeChars (c :: s) = c :: escapeChars s := by
        simp only [escapeChars]
        rw [if_neg (by tauto)]
      rw [h1]
      show parseStringBody (c :: (escapeChars s ++ ('"' :: rest))) = _
      rw [parseStringBody_cons_ne c _ hc.2 hc.1, ih]
      rfl

/-- parseStringLit inverts printString. -/
lemma parseStringLit_printString (s : String) (rest : List Char) :
    parseStringLit (printString s ++ rest) = some (s, rest) := by
  have h1 : printString s ++ rest = '"' :: (escapeChars s.data ++ ('"' :: rest)) := by
    unfold printString
    simp
  rw [h1]
  simp only [parseStringLit, if_pos rfl]
  rw [parseStringBody_escape]
  rfl

/-- expectLit consumes exactly its literal prefix. -/
lemma expectLit_append (lit rest : List Char) :
    expectLit lit (lit ++ rest) = some rest := by
  induction lit with
  | nil => rfl
  | cons c cs ih => simp [expectLit, ih]

/-- parsePos inverts printPos. -/
lemma parsePos_printPos (p : Pos) (rest : List Char) :
    parsePos (printPos p ++ rest) = some (p, rest) := by
  have hb1 : numBoundary (litYKey ++ (printRat p.y ++ (litClose ++ rest))) :=
    numBoundary_cons ',' _ (by decide) (by decide)
  have hb2 : numBoundary (litClose ++ rest) :=
    numBoundary_cons '\x7d' _ (by decide) (by decide)
  have hassoc : printPos p ++ rest =
      litPosOpen ++ (printRat p.x ++ (litYKey ++ (printRat p.y ++ (litClose ++ rest)))) := by
    unfold printPos
    simp [List.append_assoc]
  rw [hassoc]
  unfold parsePos
  rw [expectLit_append]
  simp only [Option.some_bind]
  rw [parseRat_printRat p.x _ hb1]
  simp only [Option.some_bind]
  rw [expectLit_append]
  simp only [Option.some_bind]
  rw [parseRat_printRat p.y _ hb2]
  simp only [Option.some_bind]
  rw [expectLit_append]
  rfl

/-- parseCardObj inverts printCard. -/
lemma parseCardObj_printCard (c : Card) (rest : List Char) :
    parseCardObj (printCard c ++ rest) = some (c, rest) := by
  have hassoc : printCard c ++ rest =
      litCardOpen ++ (printString c.id ++ (litTextKey ++ (printString c.text ++
        (litPositionKey ++ (printPos c.position ++ (litClose ++ rest)))))) := by
    unfold printCard
    simp [List.append_assoc]
  rw [hassoc]
  unfold parseCardObj
  rw [expectLit_append]
  simp only [Option.some_bind]
  rw [parseStringLit_printString]
  simp only [Option.some_bind]
  rw [expectLit_append]
  simp only [Option.some_bind]
  rw [parseStringLit_printString]
  simp only [Option.some_bind]
  rw [expectLit_append]
  simp only [Option.some_bind]
  rw [parsePos_printPos]
  simp only [Option.some_bind]
  rw [expectLit_append]
  rfl

/-- printCard always begins with an opening brace. -/
lemma printCard_head (c : Card) : ∃ t, printCard c = '\x7b' :: t :=
  ⟨_, rfl⟩

/-- A serialized card array body is at least as long as the card list. -/
lemma printCardsBody_length (cards : List Card) :
    cards.length ≤ (printCardsBody cards).length := by
  induction cards with
  | nil => simp [printCardsBody]
  | cons c cs ih =>
    cases cs with
    | nil => simp [printCardsBody]
    | cons c2 t =>
      simp only [printCardsBody, List.length_append, List.length_cons]
      simp only [List.length_cons] at ih
      omega

/-- parseCardsAux inverts printCardsBody on nonempty card lists, given enough
fuel. -/
lemma parseCardsAux_print (cards : List Card) (h : cards ≠ []) :
    ∀ fuel, cards.length ≤ fuel → ∀ rest,
      parseCardsAux fuel (printCardsBody cards ++ rest) = some (cards, rest) := by
  induction cards with
  | nil => exact absurd rfl h
  | cons c cs ih =>
    intro fuel hf rest
    cases fuel with
    | zero => simp at hf
    | succ f =>
      cases cs with
      | nil =>
        show parseCardsAux (f + 1) ((printCard c ++ [']']) ++ rest) = some ([c], rest)
        have hassoc : (printCard c ++ [']']) ++ rest = printCard c ++ (']' :: rest) := by
          simp
        rw [hassoc]
        simp only [parseCardsAux]
        rw [parseCardObj_printCard]
        simp only [Option.some_bind]
        show (if ']' = ',' then
            Option.map (fun q => (c :: q.1, q.2)) (parseCardsAux f rest)
          else if ']' = ']' then some ([c], rest) else none) = some ([c], rest)
        rw [if_neg (by decide), if_pos rfl]
      | cons c2 t =>
        show parseCardsAux (f + 1)
            ((printCard c ++ (',' :: printCardsBody (c2 :: t))) ++ rest) =
          some (c :: c2 :: t, rest)
        have hassoc : (printCard c ++ (',' :: printCardsBody (c2 :: t))) ++ rest =
            printCard c ++ (',' :: (printCardsBody (c2 :: t) ++ rest)) := by
          simp
        rw [hassoc]
        simp only [parseCardsAux]
        rw [parseCardObj_printCard]
        simp only [Option.some_bind]
        show (if ',' = ',' then
            Option.map (fun q => (c :: q.1, q.2))
              (parseCardsAux f (printCardsBody (c2 :: t) ++ rest))
          else if ',' = ']' then some ([c], ',' :: (printCardsBody (c2 :: t) ++ rest))
          else none) = some (c :: c2 :: t, rest)
        rw [if_pos rfl]
        have hlen : (c2 :: t).length ≤ f := by
          simp only [List.length_cons] at hf ⊢
          omega
        rw [ih (by simp) f hlen rest]
        rfl

/-- parseCards inverts stringifyCards: the full JSON round trip at the
card-list type. -/
lemma parseCards_stringify (cards : List Card) :
    parseCards (stringifyCards cards) = some cards := by
  have hdata : (stringifyCards cards).data = printCards cards := rfl
  cases cards with
  | nil =>
    unfold parseCards
    rw [hdata]
    rfl
  | cons c t =>
    obtain ⟨tl, htl⟩ := printCard_head c
    have hbody : ∃ bt, printCardsBody (c :: t) = '\x7b' :: bt := by
      cases t with
      | nil => exact ⟨tl ++ [']'], by simp [printCardsBody, htl]⟩
      | cons c2 t2 =>
        exact ⟨tl ++ (',' :: printCardsBody (c2 :: t2)), by simp [printCardsBody, htl]⟩
    obtain ⟨bt, hbt⟩ := hbody
    have h1 : parseCardsList (printCards (c :: t)) = some (c :: t, []) := by
      show parseCardsList ('[' :: printCardsBody (c :: t)) = some (c :: t, [])
      rw [hbt]
      simp only [parseCardsList]
      rw [if_neg (by decide)]
      rw [← hbt]
      have hfuel : (c :: t).length ≤ (printCardsBody (c :: t)).length + 1 := by
        have := printCardsBody_length (c :: t)
        omega
      have := parseCardsAux_print (c :: t) (by simp)
        ((printCardsBody (c :: t)).length + 1) hfuel []
      rw [List.append_nil] at this
      exact this
    unfold parseCards
    rw [hdata, h1]
    rfl

/-- Both bounds of `clamp` at the scale constants. -/
lemma clamp_scale_mem (v : ℚ) :
    MIN_SCALE ≤ clamp v MIN_SCALE MAX_SCALE ∧
      clamp v MIN_SCALE MAX_SCALE ≤ MAX_SCALE := by
  unfold clamp
  exact ⟨le_min (le_max_right _ _) (by norm_num [MIN_SCALE, MAX_SCALE]),
    min_le_right _ _⟩

/-- Algebraic core of zoom-to-cursor: rescaling the cursor distance by the new
scale keeps the world coordinate of the cursor fixed. -/
lemma zoom_preserves (cx px s ns : ℚ) (hs : s ≠ 0) (hns : ns ≠ 0) :
    (cx - (cx - (cx - px) / s * ns)) / ns = (cx - px) / s := by
  field_simp
  ring

/-- C9: after every invocation of handleWheel the canvas scale lies in the
closed interval [MIN_SCALE, MAX_SCALE] = [1/4, 5], regardless of the prior
scale value, including out-of-range values restored from persisted state. -/
theorem handleWheel_scale_in_range (canvasPosition : CanvasPos)
    (e : WheelEvent) :
    MIN_SCALE ≤ (Variant0.handleWheel canvasPosition e).scale ∧
      (Variant0.handleWheel canvasPosition e).scale ≤ MAX_SCALE :=
  clamp_scale_mem _

/-- C2: for every wheel event processed by handleWheel with current scale not
zero, the world coordinate of the cursor is preserved: (clientX - x) / scale
and (clientY - y) / scale agree before and after the update, so the canvas
point under the cursor stays at the same screen position (zoom-to-cursor). -/
theorem handleWheel_zoom_to_cursor (canvasPosition : CanvasPos) (e : WheelEvent)
    (h : canvasPosition.scale ≠ 0) :
    (e.clientX - (Variant0.handleWheel canvasPosition e).x) /
        (Variant0.handleWheel canvasPosition e).scale =
      (e.clientX - canvasPosition.x) / canvasPosition.scale ∧
    (e.clientY - (Variant0.handleWheel canvasPosition e).y) /
        (Variant0.handleWheel canvasPosition e).scale =
      (e.clientY - canvasPosition.y) / canvasPosition.scale := by
  have hmin : MIN_SCALE ≤ (Variant0.handleWheel canvasPosition e).scale :=
    (handleWheel_scale_in_range canvasPosition e).1
  have hns : (Variant0.handleWheel canvasPosition e).scale ≠ 0 := by
    intro h0
    rw [h0] at hmin
    norm_num [MIN_SCALE] at hmin
  constructor
  · have hx : (Variant0.handleWheel canvasPosition e).x =
        e.clientX - (e.clientX - canvasPosition.x) / canvasPosition.scale *
          (Variant0.handleWheel canvasPosition e).scale := rfl
    rw [hx]
    exact zoom_preserves _ _ _ _ h hns
  · have hy : (Variant0.handleWheel canvasPosition e).y =
        e.clientY - (e.clientY - canvasPosition.y) / canvasPosition.scale *
          (Variant0.handleWheel canvasPosition e).scale := rfl
    rw [hy]
    exact zoom_preserves _ _ _ _ h hns

/-- Witness for C2: concrete zoom step at scale 1 with the cursor at (100, 50). -/
theorem handleWheel_zoom_to_cursor_witness :
    (100 - (Variant0.handleWheel { x := 0, y := 0, scale := 1 }
          { clientX := 100, clientY := 50, deltaY := -100 }).x) /
        (Variant0.handleWheel { x := 0, y := 0, scale := 1 }
          { clientX := 100, clientY := 50, deltaY := -100 }).scale =
      (100 - 0) / 1 ∧
    (50 - (Variant0.handleWheel { x := 0, y := 0, scale := 1 }
          { clientX := 100, clientY := 50, deltaY := -100 }).y) /
        (Variant0.handleWheel { x := 0, y := 0, scale := 1 }
          { clientX := 100, clientY := 50, deltaY := -100 }).scale =
      (50 - 0) / 1 :=
  handleWheel_zoom_to_cursor { x := 0, y := 0, scale := 1 }
    { clientX := 100, clientY := 50, deltaY := -100 } (by norm_num)

/-- C7: during a background drag (an active `mouseDownPosition`), every
mousemove translates the canvas pan offset by exactly the cursor movement since
the previous event and leaves the scale unchanged. -/
theorem handleBackgroundMouseMove_pan (p : Pos) (cp : CanvasPos)
    (e : MouseEvent) :
    (Variant0.handleBackgroundMouseMove ⟨some p, cp⟩ e).canvasPosition.x =
      cp.x + (e.clientX - p.x) ∧
    (Variant0.handleBackgroundMouseMove ⟨some p, cp⟩ e).canvasPosition.y =
      cp.y + (e.clientY - p.y) ∧
    (Variant0.handleBackgroundMouseMove ⟨some p, cp⟩ e).canvasPosition.scale =
      cp.scale := by
  refine ⟨?_, ?_, rfl⟩
  · show cp.x - (p.x - e.clientX) = cp.x + (e.clientX - p.x)
    ring
  · show cp.y - (p.y - e.clientY) = cp.y + (e.clientY - p.y)
    ring

/-- C1: the persistence effect of createPersistentStore ignores options.type and
always writes to sessionStorage, so with type "local" the storage written on
change is not the storage the seed is read from: after a persist at key
"position", the storage selected by "local" still has no entry while the
session storage holds the value, and a reload through the selected storage
falls back to the default. -/
theorem persistStep_ignores_storage_type :
    storageFor (persistStep (World.mk emptyStore emptyStore) ("position") ("v"))
        ("local") ("position") = none ∧
    (persistStep (World.mk emptyStore emptyStore) ("position")
        ("v")).sessionStorage ("position") = some ("v") ∧
    createPersistentStoreSeed parseCards
        (storageFor (persistStep (World.mk emptyStore emptyStore) ("position")
          ("v")) ("local")) ("position") ([] : List Card) = [] := by
  refine ⟨rfl, ?_, rfl⟩
  show setItem emptyStore ("position") ("v") ("position") = some ("v")
  simp [setItem]

/-- C4: persistence round-trips: writing any card list with JSON.stringify
under key "cards" (the createEffect of the plain App variant) and reloading it
through either load path (getInitialCards, or getPersistedValue as used by
createPersistentStore with any default) yields the original card list. -/
theorem getInitialCards_persistCards (st : Store) (cards object : List Card) :
    Variant1.getInitialCards (Variant1.persistCards st cards) = cards ∧
    createPersistentStoreSeed parseCards
        (setItem st ("cards") (stringifyCards cards)) ("cards") object = cards := by
  have h1 : Variant1.persistCards st cards ("cards") = some (stringifyCards cards) := by
    unfold Variant1.persistCards setItem
    simp
  have hne : stringifyCards cards ≠ "" := by
    intro h
    have hd : (stringifyCards cards).data = [] := by
      rw [h]
    have hp : (stringifyCards cards).data = printCards cards := rfl
    rw [hp] at hd
    simp [printCards] at hd
  constructor
  · unfold Variant1.getInitialCards
    rw [h1]
    show (if stringifyCards cards = "" then []
      else (parseCards (stringifyCards cards)).getD []) = cards
    rw [if_neg hne, parseCards_stringify]
    rfl
  · unfold createPersistentStoreSeed getPersistedValue
    have h2 : setItem st ("cards") (stringifyCards cards) ("cards") =
        some (stringifyCards cards) := by
      simp [setItem]
    rw [h2]
    show (if stringifyCards cards = "" then none
      else parseCards (stringifyCards cards)).getD object = cards
    rw [if_neg hne, parseCards_stringify]
    rfl

/-- C5: when the storage key is absent or the stored string does not parse,
neither load path throws (both are total functions), and both seed their state
with the supplied default: createPersistentStore falls back to the default
object and getInitialCards to the empty list. -/
theorem load_falls_back_to_default (st : Store) (key : String)
    (object : List Card)
    (h : st key = none ∨ ∃ s, st key = some s ∧ parseCards s = none)
    (hc : st ("cards") = none ∨ ∃ s, st ("cards") = some s ∧ parseCards s = none) :
    createPersistentStoreSeed parseCards st key object = object ∧
      Variant1.getInitialCards st = [] := by
  constructor
  · unfold createPersistentStoreSeed getPersistedValue
    rcases h with h | ⟨s, hs, hp⟩
    · rw [h]
      rfl
    · rw [hs]
      show (if s = "" then none else parseCards s).getD object = object
      by_cases hse : s = "" <;> simp [hse, hp]
  · unfold Variant1.getInitialCards
    rcases hc with h | ⟨s, hs, hp⟩
    · rw [h]
    · rw [hs]
      show (if s = "" then [] else (parseCards s).getD []) = []
      by_cases hse : s = "" <;> simp [hse, hp]

/-- Witness for C5: an empty storage seeds the default object and the empty
card list. -/
theorem load_falls_back_to_default_witness :
    createPersistentStoreSeed parseCards emptyStore ("position")
        [{ id := "a", position := { x := 1, y := 2 }, text := "hi" }] =
      [{ id := "a", position := { x := 1, y := 2 }, text := "hi" }] ∧
      Variant1.getInitialCards emptyStore = [] :=
  load_falls_back_to_default emptyStore ("position")
    [{ id := "a", position := { x := 1, y := 2 }, text := "hi" }]
    (Or.inl rfl) (Or.inl rfl)

/-- C6: in the zoomable variant, a mousemove during a card drag with canvas
scale s not zero moves the dragged card's stored position by exactly
(dx / s, dy / s) for cursor movement (dx, dy), so the card's on-screen
displacement (scale times the stored displacement) equals the cursor's. -/
theorem handleMouseMove_drag_delta (cards : List Card) (card : Card) (scale : ℚ)
    (prev : Pos) (e : MouseEvent) (i : Nat)
    (hs : scale ≠ 0) (hi : cards[i]? = some card) :
    ∃ c2,
      (Variant0.handleMouseMove cards card scale (some prev) e).1[i]? = some c2 ∧
      c2.position.x = card.position.x + (e.clientX - prev.x) / scale ∧
      c2.position.y = card.position.y + (e.clientY - prev.y) / scale ∧
      scale * (c2.position.x - card.position.x) = e.clientX - prev.x ∧
      scale * (c2.position.y - card.position.y) = e.clientY - prev.y := by
  refine ⟨{ card with position :=
    { x := card.position.x + (e.clientX - prev.x) / scale
      y := card.position.y + (e.clientY - prev.y) / scale } }, ?_, rfl, rfl, ?_, ?_⟩
  · show (Variant0.updateCard cards card.id
      { position := some
          { x := card.position.x + (e.clientX - prev.x) / scale
            y := card.position.y + (e.clientY - prev.y) / scale }
        text := none })[i]? = _
    unfold Variant0.updateCard
    rw [List.getElem?_map, hi]
    simp [applyPatch]
  · show scale * ((card.position.x + (e.clientX - prev.x) / scale) -
        card.position.x) = e.clientX - prev.x
    field_simp
    ring
  · show scale * ((card.position.y + (e.clientY - prev.y) / scale) -
        card.position.y) = e.clientY - prev.y
    field_simp
    ring

/-- Witness for C6: a concrete drag step at scale 2. -/
theorem handleMouseMove_drag_delta_witness :
    ∃ c2,
      (Variant0.handleMouseMove
          [{ id := "c", position := { x := 0, y := 0 }, text := "t" }]
          { id := "c", position := { x := 0, y := 0 }, text := "t" } 2
          (some { x := 10, y := 10 }) { clientX := 14, clientY := 16 }).1[0]? =
        some c2 ∧
      c2.position.x = (0 : ℚ) + (14 - 10) / 2 ∧
      c2.position.y = (0 : ℚ) + (16 - 10) / 2 ∧
      (2 : ℚ) * (c2.position.x - 0) = 14 - 10 ∧
      (2 : ℚ) * (c2.position.y - 0) = 16 - 10 :=
  handleMouseMove_drag_delta
    [{ id := "c", position := { x := 0, y := 0 }, text := "t" }]
    { id := "c", position := { x := 0, y := 0 }, text := "t" } 2
    { x := 10, y := 10 } { clientX := 14, clientY := 16 } 0
    (by norm_num) rfl

/-- C8: the card-list operations of the two App variants are equivalent: for
the same initial list, the same generated id and the same arguments, addCard
and updateCard produce equal card lists in both variants. -/
theorem variants_card_ops_equal (cards : List Card) (newId cardId : String)
    (patch : CardPatch) :
    Variant0.addCard cards newId = Variant1.addCard cards newId ∧
      Variant0.updateCard cards cardId patch = Variant1.updateCard cards cardId patch :=
  ⟨rfl, rfl⟩

/-- C10: updateCard is a frame-preserving update in both variants: the list
keeps its length, every card whose id differs from the given id is unchanged,
and the matched card keeps its id, so only its position and text can change. -/
theorem updateCard_frame (cards : List Card) (cardId : String) (patch : CardPatch)
    (i : Nat) (c : Card) (h : cards[i]? = some c) :
    (Variant0.updateCard cards cardId patch).length = cards.length ∧
    Variant1.updateCard cards cardId patch = Variant0.updateCard cards cardId patch ∧
    ∃ c2, (Variant0.updateCard cards cardId patch)[i]? = some c2 ∧
      c2.id = c.id ∧ (c.id ≠ cardId → c2 = c) := by
  unfold Variant0.updateCard Variant1.updateCard
  refine ⟨List.length_map _ _, rfl, ?_⟩
  rw [List.getElem?_map, h]
  by_cases hid : c.id = cardId
  · exact ⟨applyPatch c patch, by simp [hid], rfl, fun hne => absurd hid hne⟩
  · exact ⟨c, by simp [hid], rfl, fun _ => rfl⟩

/-- Witness for C10: a two-card list updated at an id that matches neither
card leaves the inspected card unchanged. -/
theorem updateCard_frame_witness :
    (Variant0.updateCard
        [{ id := "a", position := { x := 0, y := 0 }, text := "s" },
         { id := "b", position := { x := 1, y := 1 }, text := "t" }]
        ("b") { position := some { x := 9, y := 9 }, text := none }).length = 2 ∧
    Variant1.updateCard
        [{ id := "a", position := { x := 0, y := 0 }, text := "s" },
         { id := "b", position := { x := 1, y := 1 }, text := "t" }]
        ("b") { position := some { x := 9, y := 9 }, text := none } =
      Variant0.updateCard
        [{ id := "a", position := { x := 0, y := 0 }, text := "s" },
         { id := "b", position := { x := 1, y := 1 }, text := "t" }]
        ("b") { position := some { x := 9, y := 9 }, text := none } ∧
    ∃ c2, (Variant0.updateCard
        [{ id := "a", position := { x := 0, y := 0 }, text := "s" },
         { id := "b", position := { x := 1, y := 1 }, text := "t" }]
        ("b") { position := some { x := 9, y := 9 }, text := none })[0]? =
        some c2 ∧
      c2.id = "a" ∧
      (("a" : String) ≠ "b" → c2 =
        { id := "a", position := { x := 0, y := 0 }, text := "s" }) :=
  updateCard_frame
    [{ id := "a", position := { x := 0, y := 0 }, text := "s" },
     { id := "b", position := { x := 1, y := 1 }, text := "t" }]
    ("b") { position := some { x := 9, y := 9 }, text := none } 0
    { id := "a", position := { x := 0, y := 0 }, text := "s" } rfl

end SolidApp
